import Mathlib

/-!
Verification of the YaYa Wallet transaction dashboard frontend
(`src/components/TransactionDashboard.tsx`, `src/hooks/useTransactions.ts`).

The TypeScript code is shallowly embedded: JavaScript integer-valued numbers
become `Int`, strings become `String`, `null`/`NaN` become `Option`, and the
React state updates of the component become explicit state-passing functions.
-/

namespace Yaya

/-! ## Pagination window (TransactionDashboard.tsx, `Pagination`, lines 304-315) -/

/-- The inclusive integer range `[s..e]` produced by `for (let i = s; i <= e; i++)`. -/
def intRange (s e : Int) : List Int :=
  (List.range (e + 1 - s).toNat).map (fun i => s + Int.ofNat i)

/-- Constant `maxVisiblePages = 5` from the `Pagination` component. -/
def maxVisiblePages : Int := 5

/-- Line 306: `let startPage = Math.max(1, currentPage - Math.floor(maxVisiblePages / 2))`.
`Math.floor(5 / 2) = 2`, which agrees with `Int` division of nonnegative values. -/
def startPage0 (currentPage : Int) : Int :=
  max 1 (currentPage - maxVisiblePages / 2)

/-- Line 307: `let endPage = Math.min(totalPages, startPage + maxVisiblePages - 1)`. -/
def endPage (currentPage totalPages : Int) : Int :=
  min totalPages (startPage0 currentPage + maxVisiblePages - 1)

/-- Lines 309-311: `if (endPage - startPage + 1 < maxVisiblePages) startPage =
Math.max(1, endPage - maxVisiblePages + 1)`. Note `endPage` is not recomputed. -/
def startPage (currentPage totalPages : Int) : Int :=
  if endPage currentPage totalPages - startPage0 currentPage + 1 < maxVisiblePages then
    max 1 (endPage currentPage totalPages - maxVisiblePages + 1)
  else
    startPage0 currentPage

/-- Lines 313-315: the list `pages` pushed by the loop from `startPage` to `endPage`. -/
def pages (currentPage totalPages : Int) : List Int :=
  intRange (startPage currentPage totalPages) (endPage currentPage totalPages)

/-- The window exactly as the specification states it (spec section 4.2, Algorithm):
start is `max(1, currentPage - floor(5/2))`, end is `min(totalPages, start + 4)`, and
start is shifted to `max(1, end - 4)` when the window is shorter than 5 pages. -/
def specWindow (currentPage totalPages : Int) : List Int :=
  let s := max 1 (currentPage - 2)
  let e := min totalPages (s + 4)
  let s1 := if e - s + 1 < 5 then max 1 (e - 4) else s
  intRange s1 e

theorem mem_intRange {s e x : Int} : x ∈ intRange s e ↔ s ≤ x ∧ x ≤ e := by
  constructor
  · intro hx
    obtain ⟨i, hi, rfl⟩ := List.mem_map.mp hx
    rw [List.mem_range] at hi
    simp only [Int.ofNat_eq_coe]
    omega
  · rintro ⟨h1, h2⟩
    refine List.mem_map.mpr ⟨(x - s).toNat, ?_, ?_⟩
    · rw [List.mem_range]
      omega
    · simp only [Int.ofNat_eq_coe]
      omega

theorem length_intRange (s e : Int) : (intRange s e).length = (e + 1 - s).toNat := by
  rw [intRange, List.length_map, List.length_range]

/-- C1: the `Pagination` component emits exactly the window described by the
specification formula (start `max(1, currentPage - 2)`, end `min(totalPages, start + 4)`,
start shifted to `max(1, end - 4)` when the window is short), and with
`totalPages = 12` the windows at pages 1, 10 and 7 are `[1..5]`, `[8..12]` and `[5..9]`. -/
theorem pagination_window_spec (currentPage totalPages : Int)
    (hc : 1 ≤ currentPage) (ht : 0 ≤ totalPages) :
    pages currentPage totalPages = specWindow currentPage totalPages ∧
    pages 1 12 = [1, 2, 3, 4, 5] ∧
    pages 10 12 = [8, 9, 10, 11, 12] ∧
    pages 7 12 = [5, 6, 7, 8, 9] := by
  refine ⟨?_, by decide, by decide, by decide⟩
  simp only [pages, specWindow, startPage, startPage0, endPage, maxVisiblePages]
  congr 1
  · split_ifs <;> omega
  · omega

/-- Witness for `pagination_window_spec` at `currentPage = 3`, `totalPages = 12`. -/
theorem pagination_window_spec_witness :
    pages 3 12 = specWindow 3 12 ∧
    pages 1 12 = [1, 2, 3, 4, 5] ∧
    pages 10 12 = [8, 9, 10, 11, 12] ∧
    pages 7 12 = [5, 6, 7, 8, 9] :=
  pagination_window_spec 3 12 (by decide) (by decide)

/-- C2: for `1 ≤ currentPage ≤ totalPages` the visible window has length
`min 5 totalPages` and contains `currentPage`. -/
theorem pagination_window_length_and_mem (currentPage totalPages : Int)
    (hc : 1 ≤ currentPage) (hct : currentPage ≤ totalPages) :
    ((pages currentPage totalPages).length : Int) = min 5 totalPages ∧
    currentPage ∈ pages currentPage totalPages := by
  constructor
  · rw [pages, length_intRange]
    simp only [startPage, startPage0, endPage, maxVisiblePages]
    split <;> omega
  · rw [pages, mem_intRange]
    simp only [startPage, startPage0, endPage, maxVisiblePages]
    split <;> omega

/-- Witness for `pagination_window_length_and_mem` at `currentPage = 7`, `totalPages = 12`. -/
theorem pagination_window_length_and_mem_witness :
    ((pages 7 12).length : Int) = min 5 12 ∧ 7 ∈ pages 7 12 :=
  pagination_window_length_and_mem 7 12 (by decide) (by decide)

/-! ## Data model (TransactionDashboard.tsx, lines 14-51 and 386-401) -/

/-- The `TransactionUser` interface (lines 15-18). -/
structure TransactionUser where
  name : String
  account : String
deriving DecidableEq, Repr

/-- The `Transaction` interface (lines 20-37). The floating-point amount and fee
fields are omitted: no claim mentions them and IEEE floats are not modelled. -/
structure Transaction where
  id : String
  sender : TransactionUser
  receiver : TransactionUser
  currency : String
  cause : String
  sender_caption : String
  receiver_caption : String
  created_at_time : Int
  is_topup : Bool
  is_outgoing_transfer : Bool
deriving DecidableEq, Repr

/-- The `pagination` piece of component state (lines 386-391) and of the
`PaginatedResponse` interface (lines 41-46). -/
structure PaginationState where
  page : Int
  limit : Int
  total : Int
  totalPages : Int
deriving DecidableEq, Repr

/-- Initial value of the `pagination` state (lines 386-391):
`page 1, limit 10, total 0, totalPages 0`. -/
def initialPagination : PaginationState :=
  ⟨1, 10, 0, 0⟩

/-- A call to `fetchTransactions(page, query)` recorded as data. -/
structure FetchCall where
  page : Int
  query : String
deriving DecidableEq, Repr

/-- The slice of `TransactionDashboard` state that `handlePageChange` reads or writes:
the `pagination` state, the URL query parameter `p` (none when absent), the
`isLoading` flag, and the settled `debouncedSearchQuery`. -/
structure DashState where
  pagination : PaginationState
  urlP : Option String
  isLoading : Bool
  debouncedSearchQuery : String
deriving DecidableEq, Repr

/-! ## Page changes (TransactionDashboard.tsx, `handlePageChange`, lines 501-512) -/

/-- The `handlePageChange` handler: rejects the change (returning the state unchanged
and no fetch) when `newPage < 1 || newPage > pagination.totalPages || isLoading`;
otherwise sets `pagination.page`, writes `p` into the URL, and calls
`fetchTransactions(newPage, debouncedSearchQuery)`. -/
def handlePageChange (s : DashState) (newPage : Int) : DashState × Option FetchCall :=
  if newPage < 1 ∨ newPage > s.pagination.totalPages ∨ s.isLoading then
    (s, none)
  else
    ({ s with
        pagination := { s.pagination with page := newPage },
        urlP := some (toString newPage) },
     some ⟨newPage, s.debouncedSearchQuery⟩)

/-- C3: a page change to a target below 1, above `totalPages`, or requested while a
fetch is in flight is a no-op: the state (pagination and URL included) is returned
unchanged and no fetch is triggered. -/
theorem handlePageChange_rejects (s : DashState) (newPage : Int)
    (h : newPage < 1 ∨ newPage > s.pagination.totalPages ∨ s.isLoading = true) :
    handlePageChange s newPage = (s, none) := by
  rw [handlePageChange, if_pos]
  rcases h with h | h | h
  · exact Or.inl h
  · exact Or.inr (Or.inl h)
  · exact Or.inr (Or.inr h)

/-- Witness for `handlePageChange_rejects`: target page 0 is rejected. -/
theorem handlePageChange_rejects_witness :
    handlePageChange ⟨⟨2, 10, 30, 3⟩, some "2", false, "q"⟩ 0 =
      (⟨⟨2, 10, 30, 3⟩, some "2", false, "q"⟩, none) :=
  handlePageChange_rejects ⟨⟨2, 10, 30, 3⟩, some "2", false, "q"⟩ 0 (by decide)

/-- C4: an accepted page change (`1 ≤ newPage ≤ totalPages`, not loading) sets
`pagination.page` to the new page, leaves `limit`, `total` and `totalPages` unchanged,
writes the new page into the URL parameter `p`, and triggers a fetch for the new page
with the current debounced search query. -/
theorem handlePageChange_accepts (s : DashState) (newPage : Int)
    (h1 : 1 ≤ newPage) (h2 : newPage ≤ s.pagination.totalPages)
    (h3 : s.isLoading = false) :
    (handlePageChange s newPage).1.pagination.page = newPage ∧
    (handlePageChange s newPage).1.pagination.limit = s.pagination.limit ∧
    (handlePageChange s newPage).1.pagination.total = s.pagination.total ∧
    (handlePageChange s newPage).1.pagination.totalPages = s.pagination.totalPages ∧
    (handlePageChange s newPage).1.urlP = some (toString newPage) ∧
    (handlePageChange s newPage).1.isLoading = s.isLoading ∧
    (handlePageChange s newPage).1.debouncedSearchQuery = s.debouncedSearchQuery ∧
    (handlePageChange s newPage).2 = some ⟨newPage, s.debouncedSearchQuery⟩ := by
  have hcond : ¬(newPage < 1 ∨ newPage > s.pagination.totalPages ∨ s.isLoading) := by
    rw [h3]
    push_neg
    exact ⟨by omega, by omega, by simp⟩
  rw [handlePageChange, if_neg hcond]
  refine ⟨rfl, rfl, rfl, rfl, rfl, rfl, rfl, rfl⟩

/-- Witness for `handlePageChange_accepts`: moving from page 2 to page 3 of 3. -/
theorem handlePageChange_accepts_witness :
    (handlePageChange ⟨⟨2, 10, 30, 3⟩, some "2", false, "q"⟩ 3).1.pagination.page = 3 ∧
    (handlePageChange ⟨⟨2, 10, 30, 3⟩, some "2", false, "q"⟩ 3).1.pagination.limit = 10 ∧
    (handlePageChange ⟨⟨2, 10, 30, 3⟩, some "2", false, "q"⟩ 3).1.pagination.total = 30 ∧
    (handlePageChange ⟨⟨2, 10, 30, 3⟩, some "2", false, "q"⟩ 3).1.pagination.totalPages = 3 ∧
    (handlePageChange ⟨⟨2, 10, 30, 3⟩, some "2", false, "q"⟩ 3).1.urlP = some (toString (3 : Int)) ∧
    (handlePageChange ⟨⟨2, 10, 30, 3⟩, some "2", false, "q"⟩ 3).1.isLoading = false ∧
    (handlePageChange ⟨⟨2, 10, 30, 3⟩, some "2", false, "q"⟩ 3).1.debouncedSearchQuery = "q" ∧
    (handlePageChange ⟨⟨2, 10, 30, 3⟩, some "2", false, "q"⟩ 3).2 = some ⟨3, "q"⟩ :=
  handlePageChange_accepts ⟨⟨2, 10, 30, 3⟩, some "2", false, "q"⟩ 3
    (by decide) (by decide) rfl

/-! ## Initial page from the URL (TransactionDashboard.tsx, mount effect, lines 476-483) -/

/-- Numeric value of a list of decimal digit characters, most significant first. -/
def digitsToNat (ds : List Char) : Nat :=
  ds.foldl (fun acc c => acc * 10 + (c.toNat - 48)) 0

/-- JavaScript `parseInt(s, 10)`: skip leading whitespace, consume an optional sign,
then the maximal prefix of decimal digits; the result is `NaN` (modelled `none`) when
that prefix is empty. (JavaScript also skips some exotic Unicode spaces; the embedding
uses `Char.isWhitespace`, which covers the ASCII ones the dashboard can produce.) -/
def jsParseInt (s : String) : Option Int :=
  let cs := s.toList.dropWhile (fun c => c.isWhitespace)
  let signAndRest : Int × List Char :=
    match cs with
    | '-' :: t => (-1, t)
    | '+' :: t => (1, t)
    | t => (1, t)
  let ds := signAndRest.2.takeWhile (fun c => c.isDigit)
  if ds.isEmpty then none
  else some (signAndRest.1 * Int.ofNat (digitsToNat ds))

/-- Mount effect, lines 477-479: `const pageParam = urlParams.get("p");
const initialPage = pageParam ? parseInt(pageParam, 10) : 1;`. The guard only tests
truthiness, so the default 1 applies exactly when `p` is absent (`none`) or the empty
string; otherwise `parseInt`'s result — possibly `NaN` (`none`) — is used as is. -/
def initialPage (pageParam : Option String) : Option Int :=
  match pageParam with
  | none => some 1
  | some s => if s = "" then some 1 else jsParseInt s

/-- Counterexample to C5: the URL parameter `p=abc` is non-numeric, yet the initial
page is `parseInt`'s `NaN` (modelled `none`), not 1 as the claim states. -/
theorem initialPage_malformed_counterexample :
    initialPage (some "abc") = none ∧ initialPage (some "abc") ≠ some 1 := by
  constructor
  · rfl
  · intro h
    simp [initialPage, jsParseInt, digitsToNat] at h

/-- C5 amended: the initial page defaults to 1 exactly when the URL parameter `p` is
absent or empty; any other value is passed to `parseInt` unvalidated, so a non-numeric
`p` such as `abc` yields `NaN` (`none`) rather than 1. -/
theorem initialPage_amended (s : String) (hs : s ≠ "") :
    initialPage none = some 1 ∧
    initialPage (some "") = some 1 ∧
    initialPage (some s) = jsParseInt s ∧
    initialPage (some "abc") = none := by
  refine ⟨rfl, rfl, ?_, rfl⟩
  rw [initialPage, if_neg hs]

/-- Witness for `initialPage_amended` at the non-empty parameter value `abc`. -/
theorem initialPage_amended_witness :
    initialPage none = some 1 ∧
    initialPage (some "") = some 1 ∧
    initialPage (some "abc") = jsParseInt "abc" ∧
    initialPage (some "abc") = none :=
  initialPage_amended "abc" (by decide)

/-! ## Fetch failure handling (TransactionDashboard.tsx lines 460-467 and
useTransactions.ts lines 40-49) -/

/-- The single user-facing message set by both catch branches. -/
def fetchFailureMessage : String :=
  "Failed to load transactions. Please check your connection and try again."

/-- The state written by a catch branch: transaction list, pagination, error message. -/
structure FetchOutcome where
  transactions : List Transaction
  pagination : PaginationState
  error : Option String
deriving DecidableEq, Repr

/-- Catch branch of `fetchTransactions` in TransactionDashboard.tsx (lines 460-467):
the caught error `err` is only logged; the state is reset to an empty transaction
list, `page 1, limit 10, total 0, totalPages 0`, and the generic message. -/
def dashboardCatch (err : String) : FetchOutcome :=
  ⟨[], ⟨1, 10, 0, 0⟩, some fetchFailureMessage⟩

/-- Catch branch of `fetchTransactions` in useTransactions.ts (lines 40-49): the
transaction list is cleared, `total` and `totalPages` are zeroed (keeping the previous
`page` and `limit`), and the same generic message is set. -/
def hookCatch (prev : PaginationState) (err : String) : FetchOutcome :=
  ⟨[], { prev with total := 0, totalPages := 0 }, some fetchFailureMessage⟩

/-- C6: every fetch failure leaves an empty transaction list, `total = 0` and
`totalPages = 0`, and a non-empty user-facing error message, and the resulting state
is independent of which error occurred — one generic message for all failures — in
both the dashboard component and the `useTransactions` hook. -/
theorem fetch_failure_resets (prev : PaginationState) (err err2 : String) :
    (dashboardCatch err).transactions = [] ∧
    (dashboardCatch err).pagination.total = 0 ∧
    (dashboardCatch err).pagination.totalPages = 0 ∧
    (dashboardCatch err).error = some fetchFailureMessage ∧
    (hookCatch prev err).transactions = [] ∧
    (hookCatch prev err).pagination.total = 0 ∧
    (hookCatch prev err).pagination.totalPages = 0 ∧
    (hookCatch prev err).error = some fetchFailureMessage ∧
    fetchFailureMessage ≠ "" ∧
    dashboardCatch err = dashboardCatch err2 ∧
    hookCatch prev err = hookCatch prev err2 :=
  ⟨rfl, rfl, rfl, rfl, rfl, rfl, rfl, rfl, by decide, rfl, rfl⟩

/-! ## Request construction (TransactionDashboard.tsx, `fetchTransactions`,
lines 415-443; the hook version in useTransactions.ts lines 16-36 builds the same
requests through `apiClient`) -/

inductive HttpMethod where
  | get
  | post
deriving DecidableEq, Repr

/-- The HTTP request `fetchTransactions(page, query)` issues: method, path, the
`page` and `limit` query parameters, and the JSON body's `query` field when present.
(JavaScript `String.prototype.trim` and Lean `String.trim` both strip leading and
trailing whitespace.) -/
structure Request where
  method : HttpMethod
  path : String
  queryPage : Int
  queryLimit : Int
  body : Option String
deriving DecidableEq, Repr

/-- Lines 424-443: `if (query.trim())` selects POST `/api/transactions/search` with
body `JSON.stringify({query: query.trim()})`, else GET `/api/transactions`; both URLs
carry `?page=${page}&limit=${pagination.limit}`. -/
def buildRequest (page limit : Int) (query : String) : Request :=
  if query.trim ≠ "" then
    ⟨HttpMethod.post, "/api/transactions/search", page, limit, some query.trim⟩
  else
    ⟨HttpMethod.get, "/api/transactions", page, limit, none⟩

/-- C7: the request is a POST to `/api/transactions/search` carrying the trimmed
query in its body exactly when the trimmed query is non-empty; an empty trimmed query
gives a GET to `/api/transactions` with no body; both carry `page` and `limit`. -/
theorem fetchTransactions_request (page limit : Int) (query : String) :
    (buildRequest page limit query).queryPage = page ∧
    (buildRequest page limit query).queryLimit = limit ∧
    (((buildRequest page limit query).method = HttpMethod.post ∧
      (buildRequest page limit query).path = "/api/transactions/search" ∧
      (buildRequest page limit query).body = some query.trim) ↔ query.trim ≠ "") ∧
    (query.trim = "" →
      (buildRequest page limit query).method = HttpMethod.get ∧
      (buildRequest page limit query).path = "/api/transactions" ∧
      (buildRequest page limit query).body = none) := by
  rw [buildRequest]
  by_cases h : query.trim = ""
  · rw [if_neg (by simp [h])]
    refine ⟨rfl, rfl, ?_, fun _ => ⟨rfl, rfl, rfl⟩⟩
    constructor
    · rintro ⟨h1, -, -⟩
      cases h1
    · intro h1
      exact absurd h h1
  · rw [if_pos h]
    refine ⟨rfl, rfl, ?_, fun h1 => absurd h1 h⟩
    exact ⟨fun _ => h, fun _ => ⟨rfl, rfl, rfl⟩⟩

/-- Witness for `fetchTransactions_request` with the query string `  hello  `. -/
theorem fetchTransactions_request_witness :
    (buildRequest 2 10 "  hello  ").queryPage = 2 ∧
    (buildRequest 2 10 "  hello  ").queryLimit = 10 ∧
    (((buildRequest 2 10 "  hello  ").method = HttpMethod.post ∧
      (buildRequest 2 10 "  hello  ").path = "/api/transactions/search" ∧
      (buildRequest 2 10 "  hello  ").body = some ("  hello  ".trim)) ↔
      "  hello  ".trim ≠ "") ∧
    ("  hello  ".trim = "" →
      (buildRequest 2 10 "  hello  ").method = HttpMethod.get ∧
      (buildRequest 2 10 "  hello  ").path = "/api/transactions" ∧
      (buildRequest 2 10 "  hello  ").body = none) :=
  fetchTransactions_request 2 10 "  hello  "

/-! ## Transaction classification (TransactionDashboard.tsx, `isIncomingTransaction`,
lines 80-90) -/

/-- Lines 80-90: a transaction is incoming when the receiver account is the current
user, or it is a top-up, or sender and receiver accounts coincide. -/
def isIncomingTransaction (transaction : Transaction) (currentUser : String) : Bool :=
  transaction.receiver.account == currentUser ||
    transaction.is_topup ||
    transaction.sender.account == transaction.receiver.account

/-- C10: a top-up, or a transaction whose sender account equals its receiver account,
is classified as incoming regardless of the configured current user. -/
theorem isIncoming_independent_of_user (t : Transaction) (currentUser : String)
    (h : t.is_topup = true ∨ t.sender.account = t.receiver.account) :
    isIncomingTransaction t currentUser = true := by
  rw [isIncomingTransaction]
  rcases h with h | h <;> simp [h]

/-- Witness for `isIncoming_independent_of_user` on a concrete top-up transaction. -/
theorem isIncoming_independent_of_user_witness :
    isIncomingTransaction
      ⟨"t1", ⟨"a", "acc-a"⟩, ⟨"b", "acc-b"⟩, "ETB", "topup", "", "", 0, true, false⟩
      "someone-else" = true :=
  isIncoming_independent_of_user
    ⟨"t1", ⟨"a", "acc-a"⟩, ⟨"b", "acc-b"⟩, "ETB", "topup", "", "", 0, true, false⟩
    "someone-else" (Or.inl rfl)

/-! ## Debounce (TransactionDashboard.tsx, `useDebounce`, lines 93-107)

The hook is modelled as a discrete-event system. A trace is the chronological list of
raw-value changes `(time in ms, new value)`. Each change schedules
`setDebouncedValue(value)` at `time + delay` (line 97) and the effect cleanup clears
any pending timer (lines 101-103), so the timer of a change fires exactly when no
later change arrives by its deadline. A change arriving exactly at the deadline is
modelled as cancelling the pending timer, matching the cleanup-before-reschedule
order of the effect. -/

/-- A raw-value change event: time in milliseconds and the new value. -/
abbrev Change := Nat × String

/-- The emissions `(fire time, value)` actually performed by the timers: the timer of
a change fires iff it is the last change or the next change arrives strictly after
its deadline. -/
def emissions (delay : Nat) : List Change → List Change
  | [] => []
  | [(t, v)] => [(t + delay, v)]
  | (t, v) :: (t2, v2) :: rest =>
    if t + delay < t2 then
      (t + delay, v) :: emissions delay ((t2, v2) :: rest)
    else
      emissions delay ((t2, v2) :: rest)

/-- The debounced value visible at time `T`: the value of the last emission at or
before `T`, or the initial value when none has fired yet. -/
def debouncedAt (delay : Nat) (init : String) (trace : List Change) (T : Nat) : String :=
  (((emissions delay trace).filter (fun e => e.1 ≤ T)).map (fun e => e.2)).getLastD init

theorem emissions_cons_cons (delay : Nat) (c c2 : Change) (rest : List Change) :
    emissions delay (c :: c2 :: rest) =
      (if c.1 + delay < c2.1 then [(c.1 + delay, c.2)] else []) ++
        emissions delay (c2 :: rest) := by
  obtain ⟨t, v⟩ := c
  obtain ⟨t2, v2⟩ := c2
  rw [emissions]
  split <;> simp

theorem exists_cons_of_append_singleton (cs : List Change) (x : Change) :
    ∃ c2 rest, cs ++ [x] = c2 :: rest := by
  cases cs with
  | nil => exact ⟨x, [], rfl⟩
  | cons d ds => exact ⟨d, ds ++ [x], rfl⟩

theorem emissions_append_last (delay : Nat) (cs : List Change) (tl : Nat) (vl : String) :
    ∃ pre, emissions delay (cs ++ [(tl, vl)]) = pre ++ [(tl + delay, vl)] := by
  induction cs with
  | nil => exact ⟨[], rfl⟩
  | cons c cs ih =>
    obtain ⟨pre, hpre⟩ := ih
    obtain ⟨c2, rest, hr⟩ := exists_cons_of_append_singleton cs (tl, vl)
    rw [List.cons_append, hr, emissions_cons_cons, ← hr, hpre]
    split
    · exact ⟨(c.1 + delay, c.2) :: pre, by simp⟩
    · exact ⟨pre, by simp⟩

theorem emissions_from_trace (delay : Nat) (trace : List Change) :
    ∀ p ∈ emissions delay trace, ∃ c ∈ trace, p = (c.1 + delay, c.2) := by
  induction trace with
  | nil => intro p hp; cases hp
  | cons c cs ih =>
    cases cs with
    | nil =>
      intro p hp
      obtain ⟨t, v⟩ := c
      rw [emissions, List.mem_singleton] at hp
      exact ⟨(t, v), List.mem_singleton_self _, hp⟩
    | cons c2 cs2 =>
      intro p hp
      rw [emissions_cons_cons] at hp
      rcases List.mem_append.mp hp with hp | hp
      · refine ⟨c, List.mem_cons_self c _, ?_⟩
        split at hp
        · rw [List.mem_singleton] at hp
          exact hp
        · cases hp
      · obtain ⟨c3, hc3, hc3e⟩ := ih p hp
        exact ⟨c3, List.mem_cons_of_mem c hc3, hc3e⟩

theorem emissions_burst (delay : Nat) (cs : List Change) (tl : Nat) (vl : String)
    (hburst : (cs ++ [(tl, vl)]).Chain' (fun a b => b.1 < a.1 + delay)) :
    emissions delay (cs ++ [(tl, vl)]) = [(tl + delay, vl)] := by
  induction cs with
  | nil => rfl
  | cons c cs ih =>
    rw [List.cons_append] at hburst ⊢
    obtain ⟨c2, rest, hr⟩ := exists_cons_of_append_singleton cs (tl, vl)
    rw [hr, List.chain'_cons] at hburst
    rw [hr, emissions_cons_cons, if_neg (by omega), List.nil_append, ← hr]
    exact ih (by rw [hr]; exact hburst.2)

/-- C8: for a chronological trace of raw-value changes ending at time `tl` with value
`vl`, the debounced value at any time `T ≥ tl + delay` is `vl`; every emission occurs
exactly `delay` ms after some change and carries that change's value (so the debounced
value never updates earlier); before any change has been pending for `delay` ms the
debounced value is still the initial one; and a burst in which every change arrives
within `delay` ms of the previous one emits exactly one debounced value, `vl` at
`tl + delay`. -/
theorem useDebounce_behavior (delay : Nat) (init : String) (cs : List Change)
    (tl : Nat) (vl : String)
    (hchrono : (cs ++ [(tl, vl)]).Pairwise (fun a b => a.1 < b.1))
    (T : Nat) (hT : tl + delay ≤ T) :
    debouncedAt delay init (cs ++ [(tl, vl)]) T = vl ∧
    (∀ p ∈ emissions delay (cs ++ [(tl, vl)]),
      ∃ c ∈ cs ++ [(tl, vl)], p = (c.1 + delay, c.2)) ∧
    (∀ T2, (∀ c ∈ cs ++ [(tl, vl)], T2 < c.1 + delay) →
      debouncedAt delay init (cs ++ [(tl, vl)]) T2 = init) ∧
    ((cs ++ [(tl, vl)]).Chain' (fun a b => b.1 < a.1 + delay) →
      emissions delay (cs ++ [(tl, vl)]) = [(tl + delay, vl)]) := by
  refine ⟨?_, emissions_from_trace delay _, ?_, emissions_burst delay cs tl vl⟩
  · obtain ⟨pre, hpre⟩ := emissions_append_last delay cs tl vl
    rw [debouncedAt, hpre, List.filter_append, List.filter_cons,
      if_pos (by simpa using hT)]
    simp
  · intro T2 hT2
    have hnone : ∀ p ∈ emissions delay (cs ++ [(tl, vl)]), ¬(p.1 ≤ T2) := by
      intro p hp
      obtain ⟨c, hc, rfl⟩ := emissions_from_trace delay _ p hp
      have := hT2 c hc
      omega
    rw [debouncedAt, List.filter_eq_nil_iff.mpr (by simpa using hnone)]
    rfl

/-- Witness for `useDebounce_behavior`: typing `a`, `ab`, `abc` at 0, 100 and 200 ms
with a 300 ms delay settles to `abc` by 500 ms after exactly one emission. -/
theorem useDebounce_behavior_witness :
    debouncedAt 300 "" ([(0, "a"), (100, "ab")] ++ [(200, "abc")]) 500 = "abc" ∧
    (∀ p ∈ emissions 300 ([(0, "a"), (100, "ab")] ++ [(200, "abc")]),
      ∃ c ∈ [(0, "a"), (100, "ab")] ++ [(200, "abc")], p = (c.1 + 300, c.2)) ∧
    (∀ T2, (∀ c ∈ [(0, "a"), (100, "ab")] ++ [(200, "abc")], T2 < c.1 + 300) →
      debouncedAt 300 "" ([(0, "a"), (100, "ab")] ++ [(200, "abc")]) T2 = "") ∧
    (([(0, "a"), (100, "ab")] ++ [(200, "abc")]).Chain'
        (fun (a b : Change) => b.1 < a.1 + 300) →
      emissions 300 ([(0, "a"), (100, "ab")] ++ [(200, "abc")]) = [(500, "abc")]) :=
  useDebounce_behavior 300 "" [(0, "a"), (100, "ab")] 200 "abc"
    (by decide) 500 (by decide)

/-! ## Pagination invariant (spec section 3; TransactionDashboard.tsx lines 386-391,
476-483 and 501-512) -/

/-- The invariant stated by the spec for `PaginationState`:
`totalPages = ceil(total/limit)` when `limit > 0`, and `page` lies within
`[1, max(totalPages, 1)]`. For integers `0 ≤ total` and `0 < limit`,
`ceil(total/limit) = (total + limit - 1) / limit`. -/
def paginationInvariant (p : PaginationState) : Prop :=
  (0 < p.limit → p.totalPages = (p.total + p.limit - 1) / p.limit) ∧
    1 ≤ p.page ∧ p.page ≤ max p.totalPages 1

instance (p : PaginationState) : Decidable (paginationInvariant p) := by
  unfold paginationInvariant
  infer_instance

/-- Mount effect, lines 481-482: `setPagination(prev => ({...prev, page: initialPage}))`.
The parsed page is written into the state unclamped; `none` when `parseInt` produced
`NaN`, which has no integer representation. -/
def mountPagination (prev : PaginationState) (pageParam : Option String) :
    Option PaginationState :=
  (initialPage pageParam).map (fun p => { prev with page := p })

/-- Counterexample to C9: loading the dashboard with URL parameter `p=2` puts the
state in `page 2, limit 10, total 0, totalPages 0` — a reachable state produced by
initialization from the URL — where `page = 2` exceeds `max(totalPages, 1) = 1`. -/
theorem pagination_invariant_counterexample :
    mountPagination initialPagination (some "2") = some ⟨2, 10, 0, 0⟩ ∧
    ¬paginationInvariant ⟨2, 10, 0, 0⟩ :=
  ⟨rfl, by decide⟩

/-- C9 amended: the invariant holds in the default initial pagination state, is
preserved by `handlePageChange` (whether the change is accepted or rejected), and
holds after the dashboard's fetch-failure reset; it is not restored by
initialization from the URL, which writes the parsed page while `totalPages` is
still 0, nor enforced on pagination objects received from the server. -/
theorem pagination_invariant_amended (s : DashState) (newPage : Int) (err : String)
    (h : paginationInvariant s.pagination) :
    paginationInvariant initialPagination ∧
    paginationInvariant (handlePageChange s newPage).1.pagination ∧
    paginationInvariant (dashboardCatch err).pagination := by
  refine ⟨by decide, ?_, show paginationInvariant ⟨1, 10, 0, 0⟩ by decide⟩
  rw [handlePageChange]
  split
  · exact h
  · rename_i hc
    push_neg at hc
    unfold paginationInvariant at h ⊢
    dsimp only
    exact ⟨h.1, by omega, by omega⟩

/-- Witness for `pagination_invariant_amended` at a concrete valid state. -/
theorem pagination_invariant_amended_witness :
    paginationInvariant initialPagination ∧
    paginationInvariant
      (handlePageChange ⟨⟨2, 10, 30, 3⟩, some "2", false, "q"⟩ 3).1.pagination ∧
    paginationInvariant (dashboardCatch "boom").pagination :=
  pagination_invariant_amended ⟨⟨2, 10, 30, 3⟩, some "2", false, "q"⟩ 3 "boom"
    (by decide)

end Yaya
